import Mathlib

/-!
Verification development for the `ai-code-alchemist` repository.

The repository is a small web application: a React front end
(`src/pages/Home.jsx`) and a single serverless HTTP handler
(`api/analyze.js`) that ingests pasted code, a single uploaded file, or a
zip archive, assembles a text corpus under a size budget, sends it to an
external text-completion service, recovers a JSON object from the reply,
and returns normalized findings.

This file shallowly embeds the logic of those two files.  External
primitives (the completion service, `JSON.parse`, the zip library, the
filesystem) are modelled at their interfaces, exactly as the code
consumes them; everything written by the repository itself is translated
from the source.
-/

namespace Alchemist

/-! ## JavaScript value model

`api/analyze.js` manipulates the result of `JSON.parse` as an untyped
JavaScript value.  We model the JSON fragment of JavaScript values:
parse results never contain `undefined`, functions, or `NaN`. -/

inductive Json where
  | null : Json
  | bool (b : Bool) : Json
  | num (q : ℚ) : Json
  | str (s : String) : Json
  | arr (elems : List Json) : Json
  | obj (fields : List (String × Json)) : Json

/-- JavaScript truthiness of a JSON value (`!!v`). -/
def Json.truthy : Json → Bool
  | .null => false
  | .bool b => b
  | .num q => q != 0
  | .str s => s != ""
  | .arr _ => true
  | .obj _ => true

/-- JavaScript `Array.isArray(v)`. -/
def Json.isArr : Json → Bool
  | .arr _ => true
  | _ => false

/-- JavaScript `typeof v` being the string type. -/
def Json.isStr : Json → Bool
  | .str _ => true
  | _ => false

/-- Property access `v.k`: `some` when `v` is an object with field `k`,
`none` otherwise (`undefined`).  Accessing a field of `null` throws in
JavaScript, but every such access in `api/analyze.js` sits inside a
`try` whose `catch` produces the same fallback as a falsy field, so
`none` is observationally faithful there. -/
def Json.getField : Json → String → Option Json
  | .obj fields, k => fields.lookup k
  | _, _ => none

/-- Fallback access `v.k || d`: the field when present and truthy, else the default. -/
def jsFieldOr (v : Json) (k : String) (d : Json) : Json :=
  match v.getField k with
  | some x => if x.truthy then x else d
  | none => d

/-! ## Response Extractor (`api/analyze.js` lines 196-235)

The handler recovers a JSON-looking substring of the reply with two
regular expressions and calls `JSON.parse` on it.  Both the completion
service and `JSON.parse` are external primitives; we model the composite
"parse of the recovered substring" as its interface value, an
`Option Json` (`none` = `JSON.parse` threw). -/

/-- Initial value of `parsedAnalysis` (lines 207-212): the default object
with the four empty category lists.  This is also what the handler sends
when extraction fails, because the current code never reassigns the raw
reply text to it. -/
def defaultParsedAnalysis : Json :=
  Json.obj
    [ ("bugs", Json.arr [])
    , ("security_vulnerabilities", Json.arr [])
    , ("improvements", Json.arr [])
    , ("explanations", Json.arr []) ]

/-- The validation at lines 217-220: each of the four keys must be
present, truthy and an array (arrays are always truthy, so this is
exactly: present and an array). -/
def hasFourListKeys (j : Json) : Bool :=
  (match j.getField "bugs" with | some v => v.truthy && v.isArr | none => false) &&
  (match j.getField "security_vulnerabilities" with | some v => v.truthy && v.isArr | none => false) &&
  (match j.getField "improvements" with | some v => v.truthy && v.isArr | none => false) &&
  (match j.getField "explanations" with | some v => v.truthy && v.isArr | none => false)

/-- Lines 207-229: given the `JSON.parse` outcome of the recovered
substring, produce `(parsedAnalysis, parseSuccess)`. -/
def extractAnalysis (p : Option Json) : Json × Bool :=
  match p with
  | none => (defaultParsedAnalysis, false)
  | some tempParsed =>
      if hasFourListKeys tempParsed then (tempParsed, true)
      else (defaultParsedAnalysis, false)

/-! ## Corpus Assembler (`api/analyze.js` lines 107-142)

Operates on the candidate files found in an extracted archive.  Each
candidate carries the byte size reported by `fs.stat` (the sort key,
line 114) and the text read by `fs.readFile` (whose length drives the
token estimate, line 120). -/

structure CandFile where
  relativePath : String
  size : Nat
  content : String
deriving DecidableEq, Repr

/-- Budget `MAX_CONTEXT_LENGTH = 900 * 1024` (line 108). -/
def MAX_CONTEXT_LENGTH : ℚ := 900 * 1024

/-- Estimate `fileContent.length / 4` (line 120).  JavaScript number division is
exact here: lengths are far below 2^52, so the double value equals the
rational. -/
def estimatedTokens (f : CandFile) : ℚ := (f.content.length : ℚ) / 4

/-- Comparator `(a, b) => b.size - a.size` (line 114): `a` precedes `b`
when `b.size ≤ a.size`.  `Array.prototype.sort` is stable, which
`List.insertionSort` with this relation reproduces. -/
def bySizeDesc (a b : CandFile) : Prop := b.size ≤ a.size

instance : DecidableRel bySizeDesc := fun a b => inferInstanceAs (Decidable (b.size ≤ a.size))

instance : IsTotal CandFile bySizeDesc :=
  ⟨fun a b => (Nat.le_total b.size a.size).imp id id⟩

instance : IsTrans CandFile bySizeDesc :=
  ⟨fun _ _ _ h h2 => le_trans h2 h⟩

/-- Sort step `allCodeFiles.sort((a, b) => b.size - a.size)` (line 114). -/
def sortBySizeDesc (files : List CandFile) : List CandFile :=
  List.insertionSort bySizeDesc files

/-- The selection loop (lines 116-133): accumulate files in order; a file
is added when `combinedCodeLength + estimatedTokens < MAX_CONTEXT_LENGTH`,
otherwise the loop breaks, skipping every remaining file. -/
def greedySelect (combinedCodeLength : ℚ) : List CandFile → List CandFile
  | [] => []
  | f :: fs =>
      if combinedCodeLength + estimatedTokens f < MAX_CONTEXT_LENGTH then
        f :: greedySelect (combinedCodeLength + estimatedTokens f) fs
      else []

/-- The three `combinedCode.push` calls per included file
(lines 124-126). -/
def fileChunks (f : CandFile) : List String :=
  [ "// --- Start of file: " ++ f.relativePath ++ " ---\n"
  , f.content
  , "// --- End of file: " ++ f.relativePath ++ " ---\n\n" ]

/-- Join of the pushed chunks with a newline separator (line 136). -/
def joinedCorpusText (included : List CandFile) : String :=
  String.intercalate "\n" (included.flatMap fileChunks)

/-- The placeholder corpus used when no file was selected
(lines 140-141). -/
def placeholderCorpusText : String :=
  "/* No supported code files (.js, .py, etc.) found in the uploaded ZIP archive or files exceed AI context limit.\nPlease ensure your ZIP contains valid code files for analysis, or paste single file content. */"

structure Corpus where
  text : String
  filesIncludedCount : Nat
  message : String
deriving Repr

/-- Lines 107-142 as a function of the archive name and candidate list:
sort, select greedily, and either join the selected files or fall back
to the placeholder text. -/
def assembleCorpus (originalFileName : String) (allCodeFiles : List CandFile) : Corpus :=
  let sorted := sortBySizeDesc allCodeFiles
  let included := greedySelect 0 sorted
  if included.length > 0 then
    { text := joinedCorpusText included
    , filesIncludedCount := included.length
    , message := "Analyzing codebase from ZIP: " ++ originalFileName ++
        " (processed " ++ toString included.length ++ " key files)." }
  else
    { text := placeholderCorpusText
    , filesIncludedCount := 0
    , message := "No supported code files found in ZIP: " ++ originalFileName ++
        " or files too large for analysis." }

/-! ## The HTTP handler (`api/analyze.js` lines 10-14 and 66-252)

The handler is modelled as a function of the request together with an
environment record holding the interface values of the external
primitives it consumes on the way (zip extraction outcome, candidate
files of the extracted archive, the completion reply, and the
`JSON.parse`-of-recovered-substring oracle).  The response is a status
code and a JSON body; the single header the code sets (`Allow` on 405)
is not modelled. -/

/-- Search for `s.includes(needle)` on character lists. -/
def listIncludes (needle : List Char) : List Char → Bool
  | [] => needle.isEmpty
  | c :: rest => List.isPrefixOf needle (c :: rest) || listIncludes needle rest

/-- JavaScript `s.includes(needle)`. -/
def strIncludes (s needle : String) : Bool :=
  listIncludes needle.data s.data

/-- JavaScript `s.toLowerCase()` (ASCII suffices here). -/
def lowerStr (s : String) : String :=
  String.mk (s.data.map Char.toLower)

/-- JavaScript `s.endsWith(suffix)`. -/
def endsWithStr (s suffix : String) : Bool :=
  List.isSuffixOf suffix.data s.data

/-- JavaScript `s.trim()`. -/
def trimStr (s : String) : String :=
  String.mk (((s.data.dropWhile Char.isWhitespace).reverse.dropWhile Char.isWhitespace).reverse)

structure HttpResponse where
  status : Nat
  body : Json

/-- A thrown/rejected JavaScript error as the catch block inspects
it: its `code` property (`none` = undefined) and its `message`. -/
structure JsError where
  code : Option String
  message : String

/-- The `files.codeFile` record formidable produces: original client
file name (may be null), temp path, byte size, and the text
`fs.readFile(filepath, utf8)` yields for it. -/
structure UploadedFile where
  originalFilename : Option String
  filepath : String
  size : Nat
  content : String

structure AnalyzeRequest where
  method : String
  contentType : Option String
  /-- What a JSON body parser would produce from the request body.
  Whether the handler ever sees it is decided by `bodyParserEnabled`. -/
  jsonBody : Option Json
  /-- The uploaded `codeFile` field of a multipart request. -/
  upload : Option UploadedFile

structure HandlerEnv where
  /-- Whether `new AdmZip` + `extractAllTo` succeed on the uploaded
  archive (they throw on malformed input). -/
  zipExtractOk : Bool
  /-- The error thrown when they do not. -/
  zipError : JsError
  /-- The candidate files `getCodeFilesFromDirectory` finds in the
  extracted archive, with their contents. -/
  zipCandidates : List CandFile
  /-- The completion service reply text. -/
  replyText : String
  /-- Result of `JSON.parse` applied to the substring the two regexes recover from
  a reply; `none` when the parse throws. -/
  recoveredParse : String → Option Json

/-- Config `export const config = ... bodyParser: false ...`
(lines 10-14): the runtime body parser is disabled, which the handler
needs for formidable to read the multipart stream. -/
def bodyParserEnabled : Bool := false

/-- The value of `req.body`: with the body parser disabled the runtime
leaves it undefined. -/
def runtimeReqBody (req : AnalyzeRequest) : Option Json :=
  if bodyParserEnabled then req.jsonBody else none

/-- The `TypeError` thrown by `req.body.code` when `req.body` is
undefined. -/
def typeErrorReadingCode : JsError :=
  { code := none
  , message := "Cannot read properties of undefined (reading \x27code\x27)" }

/-- Limit `maxFileSize: 4.5 * 1024 * 1024` (line 23). -/
def maxFileSizeBytes : Nat := 4718592

/-- Modelled from the spec: the size-limit behaviour of the external
`formidable` form parser configured at lines 19-34, which is not part of
this repository.  Per the upload constraint of the spec ("file size ≤ 4.5 MB;
exceeding it yields HTTP 413 with the fixed size-limit message") and the
catch branch of the handler itself at line 246, an oversized upload rejects with
an error whose `code` is the string `LIMIT_FILE_SIZE`; otherwise parsing
resolves with the uploaded `codeFile` field, absent when no file was
sent. -/
def parseFormOutcome (upload : Option UploadedFile) : Except JsError (Option UploadedFile) :=
  match upload with
  | some f =>
      if maxFileSizeBytes < f.size then
        Except.error { code := some "LIMIT_FILE_SIZE", message := "maxFileSize exceeded" }
      else Except.ok (some f)
  | none => Except.ok none

/-- The catch block (lines 237-252): choose a message, answer 413 for
the size-limit error code, else 500. -/
def errorCatch (error : JsError) : HttpResponse :=
  let errorMessage :=
    if error.message ≠ "" && strIncludes error.message "API key" then
      "Google AI API key is missing or invalid."
    else if error.message ≠ "" then error.message
    else "Failed to analyze code due to an internal server error."
  if error.code = some "LIMIT_FILE_SIZE" then
    { status := 413
    , body := Json.obj [("error", Json.str "File too large. Maximum allowed is 4.5MB.")] }
  else
    { status := 500, body := Json.obj [("error", Json.str errorMessage)] }

/-- The validation at lines 153-155:
`!userCode`, or `typeof userCode` not string, or `userCode.trim()` empty. -/
def validCode : Option Json → Option String
  | some (Json.str s) => if trimStr s = "" then none else some s
  | _ => none

def badRequestNoCode : HttpResponse :=
  { status := 400, body := Json.obj [("error", Json.str "No code content found for analysis.")] }

/-- Lines 192-235: the completion call succeeds with `env.replyText`,
extraction runs on it, and the handler answers 200. -/
def respond200 (env : HandlerEnv) (analysisMessage : String) : HttpResponse :=
  let e := extractAnalysis (env.recoveredParse env.replyText)
  { status := 200
  , body := Json.obj
      [ ("analysis", e.1)
      , ("parsed", Json.bool e.2)
      , ("message", Json.str analysisMessage) ] }

/-- The request handler (lines 66-252), for requests on which the
completion call itself does not fail. -/
def handler (env : HandlerEnv) (req : AnalyzeRequest) : HttpResponse :=
  if req.method ≠ "POST" then
    { status := 405, body := Json.str ("Method " ++ req.method ++ " Not Allowed") }
  else
    let isFileUpload := match req.contentType with
      | some ct => strIncludes ct "multipart/form-data"
      | none => false
    if isFileUpload then
      match parseFormOutcome req.upload with
      | Except.error e => errorCatch e
      | Except.ok none =>
          { status := 400, body := Json.obj [("error", Json.str "No file uploaded.")] }
      | Except.ok (some uploadedFile) =>
          let originalFileName := uploadedFile.originalFilename.getD "uploaded_file"
          if endsWithStr (lowerStr originalFileName) ".zip" then
            if env.zipExtractOk then
              let corpus := assembleCorpus originalFileName env.zipCandidates
              match validCode (some (Json.str corpus.text)) with
              | none => badRequestNoCode
              | some _ => respond200 env corpus.message
            else errorCatch env.zipError
          else
            match validCode (some (Json.str uploadedFile.content)) with
            | none => badRequestNoCode
            | some _ =>
                respond200 env ("Analyzing single file: " ++ originalFileName ++ ".")
    else
      match runtimeReqBody req with
      | none => errorCatch typeErrorReadingCode
      | some body =>
          match validCode (body.getField "code") with
          | none => badRequestNoCode
          | some _ => respond200 env "Analyzing pasted code."

/-! ## Result Normalizer (`src/pages/Home.jsx` lines 192-319)

The front end flattens a `parsed:true` analysis object into `Issue`
records.  Entry fields come straight from the untyped JSON entries; the
random unique-id suffix (`generateUniqueId`, an external `Math.random`
call) is not modelled, as no claim mentions ids. -/

structure Issue where
  /-- The `type` field of the pushed issue object. -/
  type : String
  /-- Field `bug.message`: carried through with no default (`none` =
  undefined). -/
  message : Option Json
  /-- Field `bug.line` with default N/A. -/
  line : Json
  /-- Field `bug.severity` with the per-category default. -/
  severity : Json
  /-- Field `bug.suggestedFix || null`; `none` when the push omits the field
  altogether. -/
  suggestedFix : Option Json
  /-- Field `bug.filePath || currentAnalysisFilePath` in the second mapping
  pass; `none` when the push omits the field (first pass). -/
  filePath : Option Json

/-- One issue of the first mapping pass (lines 194-236): no `filePath`
field. -/
def mkIssueFirstPass (t : String) (defaultSeverity : String) (e : Json) : Issue :=
  { type := t
  , message := e.getField "message"
  , line := jsFieldOr e "line" (Json.str "N/A")
  , severity := jsFieldOr e "severity" (Json.str defaultSeverity)
  , suggestedFix := some (jsFieldOr e "suggestedFix" Json.null)
  , filePath := none }

/-- One issue of the second mapping pass (lines 256-306): identical but
with the `filePath` fallback. -/
def mkIssueSecondPass (t : String) (defaultSeverity : String) (fallbackPath : String) (e : Json) : Issue :=
  { mkIssueFirstPass t defaultSeverity e with
    filePath := some (jsFieldOr e "filePath" (Json.str fallbackPath)) }

/-- The issue pushed when the first pass produced nothing
(lines 238-246). -/
def noFindingsIssue : Issue :=
  { type := "AI Analysis"
  , message := some (Json.str "No significant issues or improvements found. Code looks good!")
  , line := Json.str "N/A"
  , severity := Json.str "info"
  , suggestedFix := none
  , filePath := none }

/-- Function `handleAnalyzeCode`, `data.parsed` branch (lines 192-309): the first
mapping pass over the four lists, the empty-result fallback, then the
second mapping pass over the same four lists. -/
def normalizeParsed (bugs secs imps exps : List Json) (fallbackPath : String) : List Issue :=
  let firstPass :=
    bugs.map (mkIssueFirstPass "Bug" "high") ++
    secs.map (mkIssueFirstPass "Security Vulnerability" "critical") ++
    imps.map (mkIssueFirstPass "Improvement" "medium") ++
    exps.map (mkIssueFirstPass "Explanation" "info")
  let withFallback := if firstPass.length = 0 then [noFindingsIssue] else firstPass
  withFallback ++
    bugs.map (mkIssueSecondPass "Bug" "high" fallbackPath) ++
    secs.map (mkIssueSecondPass "Security Vulnerability" "critical" fallbackPath) ++
    imps.map (mkIssueSecondPass "Improvement" "medium" fallbackPath) ++
    exps.map (mkIssueSecondPass "Explanation" "info" fallbackPath)

/-! ## Candidate file enumeration (`api/analyze.js` lines 36-64)

`getCodeFilesFromDirectory` walks the extracted archive with
`fs.readdir`/`fs.stat`.  The filesystem is modelled as a tree whose
directories carry a readability flag (`fs.readdir` throws on an
unreadable one) and whose files carry a stat flag (`fs.stat` throws when
it is false). -/

inductive FsNode where
  | file (name : String) (size : Nat) (statOk : Bool)
  | dir (name : String) (readable : Bool) (children : List FsNode)

def SUPPORTED_EXTENSIONS : List String :=
  [ ".js", ".jsx", ".ts", ".tsx", ".html", ".css", ".py", ".java", ".cs"
  , ".php", ".rb", ".go", ".rs", ".swift", ".kt", ".m", ".c", ".cpp", ".h", ".hpp" ]

def EXCLUDED_DIRS : List String :=
  [ "node_modules", "dist", "build", ".git", ".next", ".vercel", "coverage"
  , "tmp", "public", ".yarn", "vendor" ]

/-- Node `path.extname`: the substring from the last dot on, empty when
there is no dot or the only dot starts the base name. -/
def extname (name : String) : String :=
  match name.data.reverse.findIdx? (fun c => c == '.') with
  | none => ""
  | some i =>
      let pos := name.data.length - 1 - i
      if pos = 0 then "" else String.mk (name.data.drop pos)

/-- Node `path.join(dirPath, entry.name)` for plain segment names. -/
def pathJoin (dirPath name : String) : String := dirPath ++ "/" ++ name

/-- Node `path.relative(from, to)` for the one call pattern the code
uses, `to = from + "/" + name`. -/
def pathRelative (base p : String) : String :=
  if List.isPrefixOf (base ++ "/").data p.data then String.mk (p.data.drop (base.length + 1))
  else p

/-- The record pushed at line 52. -/
structure CodeFileRec where
  fullPath : String
  relativePath : String
  size : Nat
deriving DecidableEq, Repr

/-- A thrown error carrying the `codeFiles` entries this invocation had
already pushed when it was raised (the catch at lines 60-62 returns
them). -/
structure WalkErr where
  collected : List CodeFileRec
  message : String

/-- The catch at lines 60-62: a rejection inside the loop is logged and
the invocation returns whatever it had collected. -/
def catchToList : Except WalkErr (List CodeFileRec) → List CodeFileRec
  | Except.ok l => l
  | Except.error pe => pe.collected

/-- The `for (const entry of entries)` loop (lines 46-59) of one
invocation of `getCodeFilesFromDirectory` at `dirPath` over `entries`,
with `acc` the entries pushed so far.  A sub-directory entry runs a
fresh invocation (with its own try/catch, inlined here as
`catchToList`); a failing `fs.stat` rejects the whole level. -/
def walkEntries (dirPath : String) (entries : List FsNode) (acc : List CodeFileRec) :
    Except WalkErr (List CodeFileRec) :=
  match entries with
  | [] => Except.ok acc
  | FsNode.file name size statOk :: rest =>
      if SUPPORTED_EXTENSIONS.contains (lowerStr (extname name)) then
        if statOk then
          walkEntries dirPath rest
            (acc ++ [{ fullPath := pathJoin dirPath name
                     , relativePath := pathRelative dirPath (pathJoin dirPath name)
                     , size := size }])
        else Except.error { collected := acc, message := "ENOENT: stat failed" }
      else walkEntries dirPath rest acc
  | FsNode.dir name readable children :: rest =>
      if EXCLUDED_DIRS.contains (lowerStr name) then walkEntries dirPath rest acc
      else
        let sub :=
          if readable then catchToList (walkEntries (pathJoin dirPath name) children []) else []
        walkEntries dirPath rest (acc ++ sub)

/-- Function `getCodeFilesFromDirectory` (lines 41-64) on a directory at
`dirPath` whose `fs.readdir` yields `entries` (or throws, when
`readable` is false): the whole body sits in a try whose catch returns
the list collected so far, so the returned promise resolves on every
input. -/
def getCodeFilesFromDirectory (dirPath : String) (readable : Bool) (entries : List FsNode) :
    Except WalkErr (List CodeFileRec) :=
  if readable then Except.ok (catchToList (walkEntries dirPath entries []))
  else Except.ok []

/-- The transparent characterization of the traversal result: per
level, files collected in order up to the first failing `fs.stat`
(everything after it is dropped), unreadable or excluded
sub-directories contributing nothing. -/
def collectEntries (dirPath : String) : List FsNode → List CodeFileRec
  | [] => []
  | FsNode.file name size statOk :: rest =>
      if SUPPORTED_EXTENSIONS.contains (lowerStr (extname name)) then
        if statOk then
          { fullPath := pathJoin dirPath name
          , relativePath := pathRelative dirPath (pathJoin dirPath name)
          , size := size } :: collectEntries dirPath rest
        else []
      else collectEntries dirPath rest
  | FsNode.dir name readable children :: rest =>
      if EXCLUDED_DIRS.contains (lowerStr name) then collectEntries dirPath rest
      else
        (if readable then collectEntries (pathJoin dirPath name) children else []) ++
          collectEntries dirPath rest

/-! ## Temporary-resource behaviour of the handler
(`api/analyze.js` lines 76-103 and 253-268)

`tempCleanupPath` starts at the uploaded file (line 93) and, once a zip
reaches extraction, is reassigned to the extraction directory
(line 103); the `finally` block removes that single path.  The possible
shapes of a request run are enumerated below with the temp paths each
creates. -/

inductive UploadFlow where
  /-- JSON-body request: no temp resources. -/
  | pasted
  /-- Non-zip upload: formidable wrote the file at `uploadPath`. -/
  | singleFile (uploadPath : String)
  /-- Zip upload for which `new AdmZip` threw before the extraction
  directory was created. -/
  | zipAdmZipThrew (uploadPath : String)
  /-- Zip upload for which `extractAllTo` threw: the directory exists
  but line 103 was not reached. -/
  | zipExtractThrew (uploadPath : String) (extractionDir : String)
  /-- Zip upload that reached line 103 (extraction succeeded). -/
  | zipExtracted (uploadPath : String) (extractionDir : String)

/-- The temp paths created while serving the request. -/
def tempPathsCreated : UploadFlow → List String
  | UploadFlow.pasted => []
  | UploadFlow.singleFile p => [p]
  | UploadFlow.zipAdmZipThrew p => [p]
  | UploadFlow.zipExtractThrew p d => [p, d]
  | UploadFlow.zipExtracted p d => [p, d]

/-- The value of `tempCleanupPath` when the `finally` block runs. -/
def tempCleanupPathAtFinally : UploadFlow → Option String
  | UploadFlow.pasted => none
  | UploadFlow.singleFile p => some p
  | UploadFlow.zipAdmZipThrew p => some p
  | UploadFlow.zipExtractThrew p _ => some p
  | UploadFlow.zipExtracted _ d => some d

/-- The temp paths still on disk after the `finally` block: everything
created except the one path it removes. -/
def leftoverTempPaths (w : UploadFlow) : List String :=
  (tempPathsCreated w).filter (fun q => tempCleanupPathAtFinally w ≠ some q)

/-! ## Claim-side selection rules for the Corpus Assembler

For the refinement claims about the greedy selection, the rule as the
spec words it ("if adding would exceed the budget, stop selecting
entirely"), and the amended rule in which reaching the budget exactly
also stops, to be compared with `greedySelect` from the source. -/

/-- Selection following the claim verbatim: stop at the first file whose
addition would strictly exceed the budget. -/
def claimSelect (acc : ℚ) : List CandFile → List CandFile
  | [] => []
  | f :: fs =>
      if MAX_CONTEXT_LENGTH < acc + estimatedTokens f then []
      else f :: claimSelect (acc + estimatedTokens f) fs

/-- The amended rule: stop at the first file whose addition would reach
or exceed the budget. -/
def amendedSelect (acc : ℚ) : List CandFile → List CandFile
  | [] => []
  | f :: fs =>
      if MAX_CONTEXT_LENGTH ≤ acc + estimatedTokens f then []
      else f :: amendedSelect (acc + estimatedTokens f) fs

/-- Total estimated token cost of a file list. -/
def estSum (l : List CandFile) : ℚ := (l.map estimatedTokens).sum

/-- Total character count of a file list. -/
def charSum (l : List CandFile) : Nat := (l.map (fun f => f.content.length)).sum

/-! ## Concrete fixtures used by the theorems below -/

/-- An environment in which the completion reply carries no recoverable
JSON: `JSON.parse` of the recovered substring throws. -/
def envParseFail : HandlerEnv :=
  { zipExtractOk := true
  , zipError := { code := none, message := "" }
  , zipCandidates := []
  , replyText := "Sorry, I cannot produce JSON for this input."
  , recoveredParse := fun _ => none }

/-- A well-formed single-file upload request. -/
def singleFileReq : AnalyzeRequest :=
  { method := "POST"
  , contentType := some "multipart/form-data; boundary=xyz"
  , jsonBody := none
  , upload := some { originalFilename := some "a.js", filepath := "/tmp/up_a.js", size := 10, content := "let x = 1" } }

/-- A JSON-body request with a valid, non-blank `code` string. -/
def pastedReq : AnalyzeRequest :=
  { method := "POST"
  , contentType := some "application/json"
  , jsonBody := some (Json.obj [("code", Json.str "const x = 1;")])
  , upload := none }

/-- A JSON-body request whose `code` is blank after trimming. -/
def blankPastedReq : AnalyzeRequest :=
  { method := "POST"
  , contentType := some "application/json"
  , jsonBody := some (Json.obj [("code", Json.str "   ")])
  , upload := none }

/-- A multipart request whose file is larger than 4.5 MB. -/
def req413 : AnalyzeRequest :=
  { method := "POST"
  , contentType := some "multipart/form-data; boundary=xyz"
  , jsonBody := none
  , upload := some { originalFilename := some "big.zip", filepath := "/tmp/up.zip", size := 5000000, content := "" } }

/-- A parsed reply object with the four required array keys, an extra
top-level key, and entries of shapes the schema does not describe. -/
def exoticAnalysis : Json :=
  Json.obj
    [ ("bugs", Json.arr [Json.num 5, Json.str "weird", Json.arr []])
    , ("security_vulnerabilities", Json.arr [])
    , ("improvements", Json.arr [Json.obj [("unexpected", Json.bool true)]])
    , ("explanations", Json.arr [])
    , ("extraKey", Json.str "kept verbatim") ]

/-- A bug entry with a message but no `severity`, `line`, `suggestedFix`
or `filePath`. -/
def bugEntryNoSeverity : Json :=
  Json.obj [("message", Json.str "off-by-one in loop bound")]

/-- An extracted archive holding one supported file nested two levels
deep: `a/b/c.js`. -/
def nestedTree : List FsNode :=
  [FsNode.dir "a" true [FsNode.dir "b" true [FsNode.file "c.js" 10 true]]]

/-- A candidate file whose estimated token cost is exactly the budget:
3686400 characters, estimate `3686400 / 4 = 921600 = 900 * 1024`. -/
def boundaryFile : CandFile :=
  { relativePath := "big.js", size := 3686400, content := String.mk (List.replicate 3686400 'a') }

/-- A candidate file of 3,000,000 characters: estimate 750,000 tokens,
comfortably within the budget. -/
def threeMegFile : CandFile :=
  { relativePath := "big.js", size := 3000000, content := String.mk (List.replicate 3000000 'a') }

/-- Two small candidate files (total estimate 3 tokens). -/
def smallFileA : CandFile := { relativePath := "a.js", size := 8, content := "aaaaaaaa" }

def smallFileB : CandFile := { relativePath := "b.js", size := 4, content := "bbbb" }

/-! ## Theorems -/

/-- C9: extraction succeeds exactly when `JSON.parse` of the recovered
substring succeeds and the parsed value fields `bugs`,
`security_vulnerabilities`, `improvements` and `explanations` fields are
all arrays; in that case the parsed object is passed through verbatim as
the analysis value — extra keys and arbitrarily shaped entries
included, with no validation of entry fields. -/
theorem response_extraction_iff_and_passthrough (p : Option Json) :
    ((extractAnalysis p).2 = true ↔ ∃ j, p = some j ∧ hasFourListKeys j = true)
    ∧ (∀ j, p = some j → hasFourListKeys j = true → (extractAnalysis p).1 = j) := by
  constructor
  · constructor
    · intro h
      cases p with
      | none => simp [extractAnalysis] at h
      | some j =>
          refine ⟨j, rfl, ?_⟩
          by_contra hk
          simp [extractAnalysis, hk] at h
    · rintro ⟨j, rfl, hk⟩
      simp [extractAnalysis, hk]
  · rintro j rfl hk
    simp [extractAnalysis, hk]

/-- Witness for C9: a parse result with an extra top-level key and
entries of shapes outside the schema still succeeds and is passed
through unchanged. -/
theorem response_extraction_iff_and_passthrough_witness :
    (extractAnalysis (some exoticAnalysis)).1 = exoticAnalysis
    ∧ (extractAnalysis (some exoticAnalysis)).2 = true :=
  ⟨(response_extraction_iff_and_passthrough (some exoticAnalysis)).2 exoticAnalysis rfl rfl
  , (response_extraction_iff_and_passthrough (some exoticAnalysis)).1.mpr ⟨exoticAnalysis, rfl, rfl⟩⟩

/-- C1 (code-bug evaluation): on a reply whose recovered substring fails
to parse, the handler does answer HTTP 200 with `parsed:false`, but the
`analysis` field is the default empty-category object, not the raw reply
text — the raw reply never reaches the response. -/
theorem parse_failure_response_drops_raw_text :
    handler envParseFail singleFileReq =
      { status := 200
      , body := Json.obj
          [ ("analysis", defaultParsedAnalysis)
          , ("parsed", Json.bool false)
          , ("message", Json.str "Analyzing single file: a.js.") ] }
    ∧ Json.isStr defaultParsedAnalysis = false :=
  ⟨rfl, rfl⟩

/-- C2 (code-bug evaluation): because `config.api.bodyParser` is false,
`req.body` is undefined on the JSON path, so every JSON-body request —
valid non-blank `code` and blank `code` alike — gets HTTP 500 from the
thrown TypeError, not the specified 200/400. -/
theorem pasted_code_requests_get_500 :
    (handler envParseFail pastedReq).status = 500
    ∧ (handler envParseFail blankPastedReq).status = 500 :=
  ⟨rfl, rfl⟩

/-- C6: any multipart upload whose file exceeds 4.5 MB (4718592 bytes)
is answered 413 with the fixed message, whatever the file holds. -/
theorem oversize_upload_gets_413 (env : HandlerEnv) (req : AnalyzeRequest) (f : UploadedFile)
    (hm : req.method = "POST")
    (hct : ∃ ct, req.contentType = some ct ∧ strIncludes ct "multipart/form-data" = true)
    (hup : req.upload = some f) (hsize : maxFileSizeBytes < f.size) :
    handler env req =
      { status := 413
      , body := Json.obj [("error", Json.str "File too large. Maximum allowed is 4.5MB.")] } := by
  obtain ⟨ct, hct1, hct2⟩ := hct
  simp [handler, hm, hct1, hct2, hup, parseFormOutcome, hsize, errorCatch]

/-- Witness for C6 at a concrete 5,000,000-byte upload. -/
theorem oversize_upload_gets_413_witness :
    handler envParseFail req413 =
      { status := 413
      , body := Json.obj [("error", Json.str "File too large. Maximum allowed is 4.5MB.")] } :=
  oversize_upload_gets_413 envParseFail req413
    { originalFilename := some "big.zip", filepath := "/tmp/up.zip", size := 5000000, content := "" }
    rfl ⟨"multipart/form-data; boundary=xyz", rfl, rfl⟩ rfl (by decide)

/-- C3 (code-bug evaluation): a zip upload that reaches extraction
leaves the uploaded archive file on disk — `tempCleanupPath` is
overwritten with the extraction directory, and the `finally` block
removes only that one path.  A single-file upload is cleaned up
fully. -/
theorem zip_flow_leaves_uploaded_file :
    leftoverTempPaths (UploadFlow.zipExtracted "/tmp/upload_1.zip" "/tmp/zip-extract-1")
        = ["/tmp/upload_1.zip"]
    ∧ leftoverTempPaths (UploadFlow.singleFile "/tmp/upload_2.js") = [] :=
  ⟨rfl, rfl⟩

/-- C4 (code-bug evaluation): a single bug entry produces two issues
(the two mapping passes both run), not one; both carry the defaulted
severity `high`.  The all-empty case does emit exactly the single
informational issue. -/
theorem normalizer_duplicates_each_entry :
    (normalizeParsed [bugEntryNoSeverity] [] [] [] "Pasted Code").length = 2
    ∧ (normalizeParsed [bugEntryNoSeverity] [] [] [] "Pasted Code").map Issue.severity
        = [Json.str "high", Json.str "high"]
    ∧ normalizeParsed [] [] [] [] "Pasted Code" = [noFindingsIssue] :=
  ⟨rfl, rfl, rfl⟩

/-- C5 (code-bug evaluation): a supported file nested at `a/b/c.js` in
the extracted archive is reported with `relativePath` equal to its bare
base name `c.js` — each recursive call computes `path.relative` against
its own directory, not the archive root, despite the comment at line 48
of `api/analyze.js`. -/
theorem nested_candidate_relative_path_is_basename :
    getCodeFilesFromDirectory "/tmp/zip-extract-1" true nestedTree =
      Except.ok [{ fullPath := "/tmp/zip-extract-1/a/b/c.js", relativePath := "c.js", size := 10 }]
    ∧ (("c.js" : String) == "a/b/c.js") = false := by
  constructor
  · simp +decide [getCodeFilesFromDirectory, nestedTree, walkEntries, catchToList]
  · rfl

/-- The list the traversal returns is the pure per-level collection:
`acc` plus, in entry order, the supported files up to the first failing
stat, with each non-excluded sub-directory contributing its own
(caught) collection. -/
theorem walkEntries_collect (dirPath : String) (entries : List FsNode) (acc : List CodeFileRec) :
    catchToList (walkEntries dirPath entries acc) = acc ++ collectEntries dirPath entries := by
  induction dirPath, entries, acc using walkEntries.induct with
  | case1 d acc =>
      simp [walkEntries, collectEntries, catchToList]
  | case2 d acc name size rest hsupp ih =>
      simp_all [walkEntries, collectEntries]
  | case3 d acc name size statOk rest hsupp hstat =>
      simp only [Bool.not_eq_true] at hstat
      simp_all [walkEntries, collectEntries, catchToList]
  | case4 d acc name size statOk rest hsupp ih =>
      simp_all [walkEntries, collectEntries]
  | case5 d acc name readable children rest hexcl ih =>
      simp_all [walkEntries, collectEntries]
  | case6 d acc name readable children rest hexcl sub ihChild ihRest =>
      cases readable with
      | true =>
          unfold sub at ihRest
          simp only [ihChild, dite_eq_ite, if_true] at ihRest
          simp_all [walkEntries, collectEntries]
      | false =>
          unfold sub at ihRest
          simp only [dite_eq_ite, Bool.false_eq_true, if_false, List.append_nil] at ihRest
          simp_all [walkEntries, collectEntries]

/-- C10: the candidate enumeration never rejects — every run resolves
with a list; an unreadable directory (its `fs.readdir` throws) is caught
at its own level and contributes nothing, so the result for the tree is the
same as if the unreadable subtree were absent, silently shrinking the
candidate list. -/
theorem enumeration_never_throws :
    (∀ dirPath readable entries,
        ∃ l, getCodeFilesFromDirectory dirPath readable entries = Except.ok l)
    ∧ (∀ dirPath readable entries,
        getCodeFilesFromDirectory dirPath readable entries
          = Except.ok (if readable then collectEntries dirPath entries else []))
    ∧ (∀ dirPath pre name children post,
        EXCLUDED_DIRS.contains (lowerStr name) = false →
          collectEntries dirPath (pre ++ FsNode.dir name false children :: post)
            = collectEntries dirPath (pre ++ post)) := by
  have h2 : ∀ dirPath readable entries,
      getCodeFilesFromDirectory dirPath readable entries
        = Except.ok (if readable then collectEntries dirPath entries else []) := by
    intro dirPath readable entries
    cases readable <;> simp [getCodeFilesFromDirectory, walkEntries_collect]
  refine ⟨fun d r es => ⟨_, h2 d r es⟩, h2, ?_⟩
  intro dirPath pre name children post hexcl
  induction pre with
  | nil => simp [collectEntries, hexcl]
  | cons e pre ih =>
      cases e with
      | file n s ok =>
          simp only [List.cons_append, collectEntries]
          split_ifs <;> simp [ih]
      | dir n r cs =>
          simp only [List.cons_append, collectEntries]
          split_ifs <;> simp [ih]

/-- Witness for C10: a concrete tree whose unreadable `secret`
directory (holding a supported file) contributes nothing. -/
theorem enumeration_never_throws_witness :
    collectEntries "/x"
        ([] ++ FsNode.dir "secret" false [FsNode.file "s.js" 3 true] :: [FsNode.file "b.js" 5 true])
      = collectEntries "/x" ([] ++ [FsNode.file "b.js" 5 true]) :=
  enumeration_never_throws.2.2 "/x" [] "secret" [FsNode.file "s.js" 3 true]
    [FsNode.file "b.js" 5 true] rfl

/-! ### Corpus Assembler lemmas (for C7 and C8) -/

theorem estimatedTokens_nonneg (f : CandFile) : 0 ≤ estimatedTokens f := by
  unfold estimatedTokens
  positivity

theorem estSum_cons (f : CandFile) (l : List CandFile) :
    estSum (f :: l) = estimatedTokens f + estSum l := by
  simp [estSum]

theorem estSum_nonneg (l : List CandFile) : 0 ≤ estSum l := by
  induction l with
  | nil => simp [estSum]
  | cons f fs ih => rw [estSum_cons]; exact add_nonneg (estimatedTokens_nonneg f) ih

/-- The strict-below check of the source and the amended reach-or-exceed stop
rule are the same selection. -/
theorem greedySelect_eq_amendedSelect (l : List CandFile) :
    ∀ acc, greedySelect acc l = amendedSelect acc l := by
  induction l with
  | nil => intro acc; rfl
  | cons f fs ih =>
      intro acc
      by_cases h : acc + estimatedTokens f < MAX_CONTEXT_LENGTH
      · simp only [greedySelect, amendedSelect, if_pos h, if_neg (not_le.mpr h), ih]

      · simp only [greedySelect, amendedSelect, if_neg h, if_pos (not_lt.mp h)]

/-- Loop invariant of the selection (lines 116-133): starting below the
budget, `combinedCodeLength` stays below it. -/
theorem greedySelect_budget (l : List CandFile) :
    ∀ acc, acc < MAX_CONTEXT_LENGTH →
      acc + estSum (greedySelect acc l) < MAX_CONTEXT_LENGTH := by
  induction l with
  | nil =>
      intro acc h
      simpa [greedySelect, estSum] using h
  | cons f fs ih =>
      intro acc h
      by_cases hc : acc + estimatedTokens f < MAX_CONTEXT_LENGTH
      · simp only [greedySelect, if_pos hc, estSum_cons]
        have := ih (acc + estimatedTokens f) hc
        linarith
      · simp only [greedySelect, if_neg hc]
        simpa [estSum] using h

/-- When the whole list fits strictly under the remaining budget, every
file is selected. -/
theorem greedySelect_all (l : List CandFile) :
    ∀ acc, acc + estSum l < MAX_CONTEXT_LENGTH → greedySelect acc l = l := by
  induction l with
  | nil => intro acc _; rfl
  | cons f fs ih =>
      intro acc h
      rw [estSum_cons] at h
      have hfs : 0 ≤ estSum fs := estSum_nonneg fs
      have hc : acc + estimatedTokens f < MAX_CONTEXT_LENGTH := by linarith
      simp only [greedySelect, if_pos hc]
      rw [ih (acc + estimatedTokens f) (by linarith)]

theorem estSum_eq_charSum (l : List CandFile) : estSum l = (charSum l : ℚ) / 4 := by
  induction l with
  | nil => simp [estSum, charSum]
  | cons f fs ih =>
      rw [estSum_cons, ih]
      simp only [charSum, List.map_cons, List.sum_cons, estimatedTokens]
      push_cast
      ring

/-- Filtering one size class through `orderedInsert`: the inserted file
lands behind every strictly larger one, so its own size class gains it
at the front and other classes are untouched. -/
theorem filter_size_orderedInsert (x : CandFile) (l : List CandFile) (s : Nat) :
    (List.orderedInsert bySizeDesc x l).filter (fun f => f.size == s)
      = if x.size = s then x :: l.filter (fun f => f.size == s)
        else l.filter (fun f => f.size == s) := by
  rw [List.orderedInsert_eq_take_drop, List.filter_append]
  by_cases hx : x.size = s
  · rw [if_pos hx]
    have htake : (List.takeWhile (fun b => decide ¬ bySizeDesc x b) l).filter
        (fun f => f.size == s) = [] := by
      rw [List.filter_eq_nil_iff]
      intro a ha
      have h2 := List.mem_takeWhile_imp ha
      simp only [bySizeDesc, decide_not, Bool.not_eq_true', decide_eq_false_iff_not, not_le,
        decide_eq_true_eq] at h2
      simp only [beq_iff_eq]
      omega
    have hsplit : l.filter (fun f => f.size == s)
        = (List.takeWhile (fun b => decide ¬ bySizeDesc x b) l).filter (fun f => f.size == s)
          ++ (List.dropWhile (fun b => decide ¬ bySizeDesc x b) l).filter (fun f => f.size == s) := by
      rw [← List.filter_append, List.takeWhile_append_dropWhile]
    rw [htake, hsplit, htake]
    simp [List.filter_cons, hx]
  · rw [if_neg hx]
    have hcons : List.filter (fun f => f.size == s)
        (x :: List.dropWhile (fun b => decide ¬ bySizeDesc x b) l)
        = (List.dropWhile (fun b => decide ¬ bySizeDesc x b) l).filter (fun f => f.size == s) := by
      simp [List.filter_cons, hx]
    rw [hcons, ← List.filter_append, List.takeWhile_append_dropWhile]

/-- Stability of the sort: each size class keeps its original order, so
ties keep enumeration order. -/
theorem sortBySizeDesc_stable (files : List CandFile) (s : Nat) :
    (sortBySizeDesc files).filter (fun f => f.size == s)
      = files.filter (fun f => f.size == s) := by
  induction files with
  | nil => rfl
  | cons x xs ih =>
      show (List.orderedInsert bySizeDesc x (List.insertionSort bySizeDesc xs)).filter _ = _
      rw [filter_size_orderedInsert]
      by_cases hx : x.size = s
      · rw [if_pos hx]
        rw [show (List.insertionSort bySizeDesc xs).filter (fun f => f.size == s)
              = xs.filter (fun f => f.size == s) from ih]
        simp [List.filter_cons, hx]
      · rw [if_neg hx]
        rw [show (List.insertionSort bySizeDesc xs).filter (fun f => f.size == s)
              = xs.filter (fun f => f.size == s) from ih]
        simp [List.filter_cons, hx]

/-- The reported count is always the length of the greedy selection. -/
theorem assembleCorpus_count (name : String) (files : List CandFile) :
    (assembleCorpus name files).filesIncludedCount
      = (greedySelect 0 (sortBySizeDesc files)).length := by
  unfold assembleCorpus
  by_cases h : (greedySelect 0 (sortBySizeDesc files)).length > 0
  · simp [h]
  · simp only [h, if_false]
    omega

/-- C7 counterexample: at a file whose estimated cost is exactly the
budget (3,686,400 characters, estimate 921,600 = 900·1024), the claimed
stop rule ("stop at the first file whose addition would exceed the
budget") selects the file, but the strict-below check of the code stops and
selects nothing, so the assembler reports zero files. -/
theorem greedy_stop_rule_strict_at_boundary :
    claimSelect 0 [boundaryFile] = [boundaryFile]
    ∧ greedySelect 0 [boundaryFile] = []
    ∧ (assembleCorpus "big.zip" [boundaryFile]).filesIncludedCount = 0 := by
  have hlen : boundaryFile.content.length = 3686400 := by
    show (List.replicate 3686400 'a').length = 3686400
    exact List.length_replicate ..
  have hest : estimatedTokens boundaryFile = 900 * 1024 := by
    unfold estimatedTokens
    rw [hlen]
    norm_num
  have hsort : sortBySizeDesc [boundaryFile] = [boundaryFile] := by
    simp [sortBySizeDesc, List.insertionSort, List.orderedInsert]
  have hg : greedySelect 0 [boundaryFile] = [] := by
    simp only [greedySelect]
    rw [if_neg (by rw [hest]; norm_num [MAX_CONTEXT_LENGTH])]
  refine ⟨?_, hg, ?_⟩
  · simp only [claimSelect]
    rw [if_neg (by rw [hest]; norm_num [MAX_CONTEXT_LENGTH])]
  · simp [assembleCorpus, hsort, hg]

/-- C7 amended: the assembler sorts by file size descending with ties
keeping enumeration order (stable sort), then greedily accumulates in
that order at an estimated cost of `characterLength / 4` per file,
stopping entirely at the first file whose addition would reach or
exceed the budget; a sorted list led by a file alone reaching or
exceeding the budget yields zero files and the placeholder corpus, and
a list whose files together stay strictly under the budget is included
whole, in size-descending order. -/
theorem corpus_assembler_amended (name : String) (files : List CandFile) :
    List.Sorted bySizeDesc (sortBySizeDesc files)
    ∧ (sortBySizeDesc files).Perm files
    ∧ (∀ s : Nat, (sortBySizeDesc files).filter (fun f => f.size == s)
        = files.filter (fun f => f.size == s))
    ∧ (assembleCorpus name files).filesIncludedCount
        = (amendedSelect 0 (sortBySizeDesc files)).length
    ∧ (∀ f rest, sortBySizeDesc files = f :: rest →
        MAX_CONTEXT_LENGTH ≤ estimatedTokens f →
          (assembleCorpus name files).filesIncludedCount = 0
          ∧ (assembleCorpus name files).text = placeholderCorpusText)
    ∧ (estSum files < MAX_CONTEXT_LENGTH →
        (assembleCorpus name files).filesIncludedCount = files.length
        ∧ (files ≠ [] →
            (assembleCorpus name files).text = joinedCorpusText (sortBySizeDesc files))) := by
  have hperm : (sortBySizeDesc files).Perm files := List.perm_insertionSort bySizeDesc files
  have hsum : estSum (sortBySizeDesc files) = estSum files := by
    unfold estSum
    exact List.Perm.sum_eq (hperm.map estimatedTokens)
  refine ⟨List.sorted_insertionSort bySizeDesc files, hperm,
    fun s => sortBySizeDesc_stable files s, ?_, ?_, ?_⟩
  · rw [assembleCorpus_count, greedySelect_eq_amendedSelect]
  · intro f rest hs hle
    have hg : greedySelect 0 (sortBySizeDesc files) = [] := by
      rw [hs]
      simp only [greedySelect]
      rw [if_neg (by rw [zero_add]; exact not_lt.mpr hle)]
    constructor
    · rw [assembleCorpus_count, hg]
      rfl
    · simp [assembleCorpus, hg]
  · intro hunder
    have hg : greedySelect 0 (sortBySizeDesc files) = sortBySizeDesc files := by
      refine greedySelect_all _ 0 ?_
      rw [zero_add, hsum]
      exact hunder
    constructor
    · rw [assembleCorpus_count, hg, hperm.length_eq]
    · intro hne
      have hlen : 0 < (sortBySizeDesc files).length := by
        rw [hperm.length_eq]
        exact List.length_pos.mpr hne
      simp only [assembleCorpus, hg]
      rw [if_pos hlen]

/-- Witness for C7 (amended): two small files comfortably under budget
are both included, and the corpus is the join of the sorted list. -/
theorem corpus_assembler_amended_witness :
    (assembleCorpus "proj.zip" [smallFileB, smallFileA]).filesIncludedCount = 2
    ∧ (assembleCorpus "proj.zip" [smallFileB, smallFileA]).text
        = joinedCorpusText (sortBySizeDesc [smallFileB, smallFileA]) := by
  have h := corpus_assembler_amended "proj.zip" [smallFileB, smallFileA]
  have ha : ("aaaaaaaa" : String).length = 8 := rfl
  have hb : ("bbbb" : String).length = 4 := rfl
  have hsum : estSum [smallFileB, smallFileA] < MAX_CONTEXT_LENGTH := by
    simp only [estSum, List.map_cons, List.map_nil, List.sum_cons, List.sum_nil,
      estimatedTokens, smallFileA, smallFileB, ha, hb]
    norm_num [MAX_CONTEXT_LENGTH]
  exact ⟨(h.2.2.2.2.2 hsum).1, (h.2.2.2.2.2 hsum).2 (List.cons_ne_nil _ _)⟩

/-- C8 amended: the quantity the budget bounds is the estimated token
total (characters / 4): it stays strictly below 900·1024, so the
character total of the included files stays strictly below
4·900·1024 = 3,686,400 — not below 900·1024 characters. -/
theorem corpus_included_chars_bounded (files : List CandFile) :
    estSum (greedySelect 0 (sortBySizeDesc files)) < 900 * 1024
    ∧ charSum (greedySelect 0 (sortBySizeDesc files)) < 3686400 := by
  have h := greedySelect_budget (sortBySizeDesc files) 0 (by norm_num [MAX_CONTEXT_LENGTH])
  rw [zero_add] at h
  have h1 : estSum (greedySelect 0 (sortBySizeDesc files)) < 900 * 1024 := by
    simpa [MAX_CONTEXT_LENGTH] using h
  refine ⟨h1, ?_⟩
  have h2 : (charSum (greedySelect 0 (sortBySizeDesc files)) : ℚ) / 4 < 900 * 1024 := by
    rw [← estSum_eq_charSum]
    exact h1
  have h3 : (charSum (greedySelect 0 (sortBySizeDesc files)) : ℚ) < 3686400 := by
    linarith
  exact_mod_cast h3

/-- C8 counterexample: a single 3,000,000-character file is selected
(estimate 750,000 < 921,600), so the included character total is
3,000,000 — more than three times 900·1024 = 921,600 characters. -/
theorem corpus_included_chars_exceed_900k :
    greedySelect 0 (sortBySizeDesc [threeMegFile]) = [threeMegFile]
    ∧ charSum [threeMegFile] = 3000000
    ∧ 3 * (900 * 1024) < 3000000 := by
  have hlen : threeMegFile.content.length = 3000000 := by
    show (List.replicate 3000000 'a').length = 3000000
    exact List.length_replicate ..
  have hest : estimatedTokens threeMegFile = 750000 := by
    unfold estimatedTokens
    rw [hlen]
    norm_num
  have hsort : sortBySizeDesc [threeMegFile] = [threeMegFile] := by
    simp [sortBySizeDesc, List.insertionSort, List.orderedInsert]
  refine ⟨?_, ?_, by norm_num⟩
  · rw [hsort]
    simp only [greedySelect]
    rw [if_pos (by rw [hest]; norm_num [MAX_CONTEXT_LENGTH])]
  · simp [charSum, hlen]

end Alchemist
